import Mathlib

/-!
# Verification of the street-view scraper core (src/scraper.py)

Shallow embedding of the `StreetViewScraper` class. Conventions:

* HTTP traffic is abstracted by an oracle `responses : Nat → HttpOutcome`
  giving, for each attempt number, the outcome of the request made at that
  attempt (a response with status code, content type and payload bytes, or
  a network-level exception).
* Python lists are Lean lists; `list.append(x)` is `l ++ [x]`.
* Payload bytes are `List Nat`; only the length and the content type are
  inspected by the code.
* `time.sleep` durations are recorded in a `sleeps : List ℚ` trace
  (rational-valued, standing for the float arithmetic of the source, which
  at the level of real numbers is exact for the products the code forms);
  the rate-limit sleep between headings is not recorded, only the retry
  backoff sleeps of `_make_request`.
* Timestamps (`datetime.now()`) are not modelled: `last_updated` is kept
  unchanged where the source would stamp the current time.
* Local file writes are reified as data in the result record
  (`writtenImages`, `metadataWritten`); writes are assumed to succeed (the
  `IOError` handlers of the source are not exercised by any claim).
* Text is restricted to ASCII: `pyLowerChar` and `isPySpace` model
  `str.lower()` and the regex class `\s` on ASCII text.
-/

namespace ItsGarages

/-- The persisted progress dictionary of `_load_progress` / `_save_progress`:
keys `completed`, `failed`, `last_updated`, `total_requests`,
`successful_requests`. `completed` and `failed` are Python lists (ordered,
duplicates possible), not sets. -/
structure ProgressData where
  completed : List String
  failed : List String
  lastUpdated : Option String
  totalRequests : Nat
  successfulRequests : Nat
deriving DecidableEq

/-- The fresh zero state returned by `_load_progress` when no usable file
exists. -/
def freshProgress : ProgressData :=
  { completed := [], failed := [], lastUpdated := none,
    totalRequests := 0, successfulRequests := 0 }

/-- What reading the progress file can yield: the file is absent, opening
or reading it raises `IOError`, its contents raise `json.JSONDecodeError`,
or it parses to a progress dictionary. -/
inductive ReadResult where
  | noFile
  | readError
  | badJson
  | ok (d : ProgressData)
deriving DecidableEq

/-- `_load_progress`. Returns the loaded state together with the list of
warning messages printed while loading (the source prints none: the
`except (json.JSONDecodeError, IOError)` handler is a bare `pass`).
Totality of this function models that `_load_progress` never raises to its
caller for any of the modelled failure modes. -/
def loadProgress : ReadResult → ProgressData × List String
  | .noFile => (freshProgress, [])
  | .readError => (freshProgress, [])
  | .badJson => (freshProgress, [])
  | .ok d => (d, [])

/-- The characters removed by the first substitution of
`_sanitize_filename`, `re.sub` of the class `<>:"/\|?*` with the empty
string. -/
def specialChars : List Char := ['<', '>', ':', '\"', '/', '\\', '|', '?', '*']

/-- The characters removed by the second substitution, `re.sub` of the
class containing comma and period with the empty string. -/
def punctChars : List Char := [',', '.']

/-- ASCII whitespace as matched by the Python regex class `\s` and
stripped by `str.strip()`. -/
def isPySpace (c : Char) : Bool :=
  c.toNat = 32 || c.toNat = 9 || c.toNat = 10 || c.toNat = 13 ||
  c.toNat = 11 || c.toNat = 12

/-- `str.strip()`: drop leading and trailing whitespace. -/
def pyStrip (l : List Char) : List Char :=
  ((l.dropWhile isPySpace).reverse.dropWhile isPySpace).reverse

/-- `re.sub` of `\s+` with an underscore: replace each maximal run of
whitespace by a single underscore. The boolean argument records whether
the previous character was whitespace. -/
def collapseWsAux : Bool → List Char → List Char
  | _, [] => []
  | prevWs, c :: cs =>
    if isPySpace c then
      if prevWs then collapseWsAux true cs
      else '_' :: collapseWsAux true cs
    else c :: collapseWsAux false cs

/-- `str.lower()` restricted to ASCII: map code points 65 to 90 onto 97 to
122. -/
def pyLowerChar (c : Char) : Char :=
  if 65 ≤ c.toNat ∧ c.toNat ≤ 90 then Char.ofNat (c.toNat + 32) else c

/-- `_sanitize_filename`: remove the `specialChars`, remove comma and
period, strip and collapse whitespace runs to underscores, lowercase,
truncate to 100 characters. -/
def sanitizeFilename (address : String) : String :=
  let cs := address.data.filter (fun c => !(specialChars.contains c))
  let cs := cs.filter (fun c => !(punctChars.contains c))
  let cs := collapseWsAux false (pyStrip cs)
  let cs := cs.map pyLowerChar
  let cs := if cs.length > 100 then cs.take 100 else cs
  String.mk cs

/-- Key derivation as the specification words it, for refinement
comparison with `sanitizeFilename`: strip characters outside `[A-Za-z0-9]`
and whitespace, collapse runs of whitespace to a single underscore,
lowercase, truncate to 100 characters. -/
def specDeriveKey (address : String) : String :=
  let cs := address.data.filter (fun c => c.isAlphanum || isPySpace c)
  let cs := collapseWsAux false (pyStrip cs)
  let cs := cs.map pyLowerChar
  String.mk (cs.take 100)

/-- Outcome of one `requests.get` call: an HTTP response (any status code)
or a network-level exception (`requests.RequestException`, e.g. a
timeout). -/
inductive HttpOutcome where
  | response (statusCode : Nat) (contentType : String) (body : List Nat)
  | netError
deriving DecidableEq

/-- The Python substring test used for the content-type check of
`_make_request`. -/
def strContains (needle hay : String) : Bool :=
  hay.data.tails.any (fun t => needle.data.isPrefixOf t)

/-- Result of `_make_request`, instrumented with the number of HTTP
attempts performed (one per `requests.get` call) and the trace of backoff
sleep durations. -/
structure RequestResult where
  data : Option (List Nat)
  st : ProgressData
  attempts : Nat
  sleeps : List ℚ

/-- Body of `_make_request`, with the remaining retry budget
`remaining = max_retries - retry_count` made explicit so that the
recursion is structural: the source guard `retry_count < max_retries`
holds exactly when `remaining` is a successor, and the recursive call at
`retry_count + 1` has budget `remaining - 1`. On a response the counter
`total_requests` is incremented; a 200 response with an image content type
and more than 1000 payload bytes is a success (incrementing
`successful_requests`); a 200 response otherwise returns `None` with no
retry; a non-200 response or a network exception retries after sleeping
`rate_limit_delay * (retry_count + 1)` while budget remains. On a network
exception no counter is touched, because the increment follows the
`requests.get` call in the `try` block. -/
def makeRequestAux (responses : Nat → HttpOutcome) (delay : ℚ) :
    Nat → Nat → ProgressData → RequestResult
  | remaining, retryCount, st =>
    match responses retryCount with
    | .response statusCode contentType body =>
      let st1 : ProgressData := { st with totalRequests := st.totalRequests + 1 }
      if statusCode = 200 then
        if strContains "image" contentType && decide (body.length > 1000) then
          { data := some body,
            st := { st1 with successfulRequests := st1.successfulRequests + 1 },
            attempts := 1, sleeps := [] }
        else
          { data := none, st := st1, attempts := 1, sleeps := [] }
      else
        match remaining with
        | r + 1 =>
          let res := makeRequestAux responses delay r (retryCount + 1) st1
          { res with attempts := res.attempts + 1,
                     sleeps := delay * (retryCount + 1 : ℚ) :: res.sleeps }
        | 0 => { data := none, st := st1, attempts := 1, sleeps := [] }
    | .netError =>
      match remaining with
      | r + 1 =>
        let res := makeRequestAux responses delay r (retryCount + 1) st
        { res with attempts := res.attempts + 1,
                   sleeps := delay * (retryCount + 1 : ℚ) :: res.sleeps }
      | 0 => { data := none, st := st, attempts := 1, sleeps := [] }

/-- `_make_request(address, heading, retry_count)`: the oracle `responses`
fixes the address and the heading. -/
def makeRequest (responses : Nat → HttpOutcome) (maxRetries : Nat) (delay : ℚ)
    (retryCount : Nat) (st : ProgressData) : RequestResult :=
  makeRequestAux responses delay (maxRetries - retryCount) retryCount st

/-- The failure outcomes that `_make_request` retries: a non-200 response
or a network exception. A 200 response without a genuine image is not
retried. -/
def isRetriableFailure : HttpOutcome → Bool
  | .response statusCode _ _ => statusCode != 200
  | .netError => true

/-- The outcomes for which `requests.get` returns normally, so that the
increment of `total_requests` runs. -/
def responded : HttpOutcome → Bool
  | .response _ _ _ => true
  | .netError => false

/-- The outcomes on which the per-heading fetch cannot return image data:
a network exception, a non-200 response, or a 200 response whose content
type is not an image or whose payload is at most 1000 bytes. An address
where every attempt at every heading has such an outcome retrieves no
image (the all-failure scenario). -/
def isFailure : HttpOutcome → Bool
  | .response statusCode contentType body =>
      statusCode != 200 ||
        !(strContains "image" contentType && decide (body.length > 1000))
  | .netError => true

/-- The metadata dictionary written to the per-address `metadata.json`
(the `scraped_date` timestamp is not modelled). -/
structure Metadata where
  address : String
  folderName : String
  images : List String
  headingsAttempted : List Int
  headingsSuccessful : List Int
deriving DecidableEq

/-- Result of `scrape_property`, with the file-system effects reified:
the image files written and the metadata file content, if written. -/
structure ScrapeResult where
  success : Bool
  st : ProgressData
  writtenImages : List String
  metadataWritten : Option Metadata
  attempts : Nat
deriving DecidableEq

/-- State of the per-heading loop of `scrape_property`. -/
structure HeadingLoop where
  st : ProgressData
  images : List String
  headingsSuccessful : List Int
  attempts : Nat
deriving DecidableEq

/-- The per-heading image file name `streetview_<heading>deg.jpg`. -/
def headingFilename (heading : Int) : String :=
  "streetview_" ++ toString heading ++ "deg.jpg"

/-- One iteration of the heading loop: call `_make_request` at
`retry_count = 0`; on image data, record the saved filename and the
heading. -/
def scrapeHeading (responses : Int → Nat → HttpOutcome) (maxRetries : Nat)
    (delay : ℚ) (acc : HeadingLoop) (heading : Int) : HeadingLoop :=
  let r := makeRequest (responses heading) maxRetries delay 0 acc.st
  match r.data with
  | some _ =>
    { st := r.st,
      images := acc.images ++ [headingFilename heading],
      headingsSuccessful := acc.headingsSuccessful ++ [heading],
      attempts := acc.attempts + r.attempts }
  | none =>
    { acc with st := r.st, attempts := acc.attempts + r.attempts }

/-- The `full_address` construction at the top of `scrape_property` (and
repeated in `scrape_from_csv`): append city and state after a comma and
zip after a space, each only when non-empty. -/
def fullAddress (address city state zip : String) : String :=
  let fa := address
  let fa := if city ≠ "" then fa ++ ", " ++ city else fa
  let fa := if state ≠ "" then fa ++ ", " ++ state else fa
  if zip ≠ "" then fa ++ " " ++ zip else fa

/-- `scrape_property`: skip when the folder name is already in
`completed`; otherwise run every heading, write `metadata.json`
unconditionally, and append the folder name to `completed` when at least
one image was retrieved, else to `failed`. -/
def scrapeProperty (headings : List Int) (maxRetries : Nat) (delay : ℚ)
    (responses : Int → Nat → HttpOutcome)
    (address city state zip : String) (st : ProgressData) : ScrapeResult :=
  let fullAddr := fullAddress address city state zip
  let folderName := sanitizeFilename fullAddr
  if folderName ∈ st.completed then
    { success := true, st := st, writtenImages := [],
      metadataWritten := none, attempts := 0 }
  else
    let final := headings.foldl (scrapeHeading responses maxRetries delay)
      { st := st, images := [], headingsSuccessful := [], attempts := 0 }
    let metadata : Metadata :=
      { address := fullAddr, folderName := folderName, images := final.images,
        headingsAttempted := headings,
        headingsSuccessful := final.headingsSuccessful }
    if final.images ≠ [] then
      { success := true,
        st := { final.st with completed := final.st.completed ++ [folderName] },
        writtenImages := final.images, metadataWritten := some metadata,
        attempts := final.attempts }
    else
      { success := false,
        st := { final.st with failed := final.st.failed ++ [folderName] },
        writtenImages := final.images, metadataWritten := some metadata,
        attempts := final.attempts }

/-- The summary dictionary of `_get_summary`. -/
structure Summary where
  totalCompleted : Nat
  totalFailed : Nat
  totalRequests : Nat
  successfulRequests : Nat
  successRate : ℚ
  lastUpdated : Option String
deriving DecidableEq

/-- `_get_summary`: note that `success_rate` is the percentage
`successful_requests / total_requests * 100` when any request was made,
else `0`. -/
def getSummary (st : ProgressData) : Summary :=
  { totalCompleted := st.completed.length,
    totalFailed := st.failed.length,
    totalRequests := st.totalRequests,
    successfulRequests := st.successfulRequests,
    successRate :=
      if st.totalRequests > 0 then
        (st.successfulRequests : ℚ) / (st.totalRequests : ℚ) * 100
      else 0,
    lastUpdated := st.lastUpdated }

/-- One fetch target of `scrape_from_csv`. -/
structure Target where
  address : String
  city : String
  state : String
  zip : String

/-- The progress state after a sequence of `scrape_property` calls, one
per target, threading the progress state (the per-target loop of
`scrape_from_csv`, and equally a sequence of calls across runs over the
same persisted state). The oracle may depend on the target. -/
def runTargets (headings : List Int) (maxRetries : Nat) (delay : ℚ)
    (oracle : Target → Int → Nat → HttpOutcome)
    (targets : List Target) (st : ProgressData) : ProgressData :=
  targets.foldl
    (fun s t =>
      (scrapeProperty headings maxRetries delay (oracle t)
        t.address t.city t.state t.zip s).st)
    st

/-- An oracle on which headings 0 and 180 yield a genuine image at the
first attempt and every other heading yields a 200 response that is not an
image. -/
def partialOracle : Int → Nat → HttpOutcome := fun h _ =>
  if h = 0 || h = 180 then .response 200 "image/jpeg" (List.replicate 1001 0)
  else .response 200 "text/html" []

/-- An oracle on which every request yields a genuine image. -/
def allSuccessOracle : Int → Nat → HttpOutcome :=
  fun _ _ => .response 200 "image/jpeg" (List.replicate 1001 0)

/-! ## Helper lemmas about `_make_request` -/

theorem makeRequestAux_success (responses : Nat → HttpOutcome) (delay : ℚ)
    (ct : String) (body : List Nat)
    (h : responses 0 = .response 200 ct body)
    (hok : (strContains "image" ct && decide (body.length > 1000)) = true) :
    ∀ (r : Nat) (st : ProgressData),
      makeRequestAux responses delay r 0 st =
        { data := some body,
          st := { st with
                  totalRequests := st.totalRequests + 1
                  successfulRequests := st.successfulRequests + 1 },
          attempts := 1, sleeps := [] } := by
  intro r st
  cases r <;> simp [makeRequestAux, h, hok]

theorem makeRequestAux_noImagery (responses : Nat → HttpOutcome) (delay : ℚ)
    (ct : String) (body : List Nat)
    (h : responses 0 = .response 200 ct body)
    (hno : (strContains "image" ct && decide (body.length > 1000)) = false) :
    ∀ (r : Nat) (st : ProgressData),
      makeRequestAux responses delay r 0 st =
        { data := none, st := { st with totalRequests := st.totalRequests + 1 },
          attempts := 1, sleeps := [] } := by
  intro r st
  cases r <;> simp [makeRequestAux, h, hno]

theorem makeRequestAux_netError (responses : Nat → HttpOutcome) (delay : ℚ)
    (hall : ∀ n, responses n = .netError) :
    ∀ (r rc : Nat) (st : ProgressData),
      makeRequestAux responses delay r rc st =
        { data := none, st := st, attempts := r + 1,
          sleeps := (List.range' (rc + 1) r).map (fun k => delay * (k : ℚ)) } := by
  intro r
  induction r with
  | zero =>
    intro rc st
    simp [makeRequestAux, hall rc]
  | succ n ih =>
    intro rc st
    simp only [makeRequestAux, hall rc, ih (rc + 1) st, List.range'_succ, List.map_cons]
    simp [Nat.cast_add, Nat.cast_one]

theorem makeRequestAux_retriable (responses : Nat → HttpOutcome) (delay : ℚ)
    (hall : ∀ n, isRetriableFailure (responses n) = true) :
    ∀ (r rc : Nat) (st : ProgressData),
      (makeRequestAux responses delay r rc st).data = none ∧
      (makeRequestAux responses delay r rc st).attempts = r + 1 ∧
      (makeRequestAux responses delay r rc st).sleeps =
        (List.range' (rc + 1) r).map (fun k => delay * (k : ℚ)) := by
  intro r
  induction r with
  | zero =>
    intro rc st
    cases hresp : responses rc with
    | response statusCode contentType body =>
      have hne : statusCode ≠ 200 := by
        have := hall rc
        rw [hresp] at this
        simpa [isRetriableFailure] using this
      simp [makeRequestAux, hresp, hne]
    | netError => simp [makeRequestAux, hresp]
  | succ n ih =>
    intro rc st
    cases hresp : responses rc with
    | response statusCode contentType body =>
      have hne : statusCode ≠ 200 := by
        have := hall rc
        rw [hresp] at this
        simpa [isRetriableFailure] using this
      simp only [makeRequestAux, hresp, hne, if_false]
      refine ⟨(ih (rc + 1) _).1, ?_, ?_⟩
      · simp [(ih (rc + 1) _).2.1]
      · simp [(ih (rc + 1) _).2.2, List.range'_succ]
    | netError =>
      simp only [makeRequestAux, hresp]
      refine ⟨(ih (rc + 1) _).1, ?_, ?_⟩
      · simp [(ih (rc + 1) _).2.1]
      · simp [(ih (rc + 1) _).2.2, List.range'_succ]

theorem makeRequestAux_accounting (responses : Nat → HttpOutcome) (delay : ℚ) :
    ∀ (r rc : Nat) (st : ProgressData),
      (makeRequestAux responses delay r rc st).st.totalRequests =
        st.totalRequests +
          ((List.range' rc (makeRequestAux responses delay r rc st).attempts).filter
            (fun n => responded (responses n))).length ∧
      (makeRequestAux responses delay r rc st).st.successfulRequests =
        st.successfulRequests +
          (if (makeRequestAux responses delay r rc st).data.isSome then 1 else 0) := by
  intro r
  induction r with
  | zero =>
    intro rc st
    cases hresp : responses rc with
    | response statusCode contentType body =>
      by_cases h200 : statusCode = 200
      · by_cases himg : (strContains "image" contentType && decide (body.length > 1000)) = true
        · simp [makeRequestAux, hresp, h200, himg, List.range', responded]
        · simp [makeRequestAux, hresp, h200, himg, List.range', responded]
      · simp [makeRequestAux, hresp, h200, List.range', responded]
    | netError => simp [makeRequestAux, hresp, List.range', responded]
  | succ n ih =>
    intro rc st
    cases hresp : responses rc with
    | response statusCode contentType body =>
      by_cases h200 : statusCode = 200
      · by_cases himg : (strContains "image" contentType && decide (body.length > 1000)) = true
        · simp [makeRequestAux, hresp, h200, himg, List.range', responded]
        · simp [makeRequestAux, hresp, h200, himg, List.range', responded]
      · have e1 := (ih (rc + 1) { st with totalRequests := st.totalRequests + 1 }).1
        have e2 := (ih (rc + 1) { st with totalRequests := st.totalRequests + 1 }).2
        simp only [makeRequestAux, hresp, h200, if_false]
        constructor
        · simp only [e1, List.range'_succ, List.filter_cons, hresp, responded]
          simp
          omega
        · simpa using e2
    | netError =>
      have e1 := (ih (rc + 1) st).1
      have e2 := (ih (rc + 1) st).2
      simp only [makeRequestAux, hresp]
      constructor
      · simp only [e1, List.range'_succ, List.filter_cons, hresp, responded]
        simp
      · simpa using e2

theorem makeRequestAux_marks (responses : Nat → HttpOutcome) (delay : ℚ) :
    ∀ (r rc : Nat) (st : ProgressData),
      (makeRequestAux responses delay r rc st).st.completed = st.completed ∧
      (makeRequestAux responses delay r rc st).st.failed = st.failed := by
  intro r
  induction r with
  | zero =>
    intro rc st
    cases hresp : responses rc with
    | response statusCode contentType body =>
      by_cases h200 : statusCode = 200
      · by_cases himg : (strContains "image" contentType && decide (body.length > 1000)) = true
        · simp [makeRequestAux, hresp, h200, himg]
        · simp [makeRequestAux, hresp, h200, himg]
      · simp [makeRequestAux, hresp, h200]
    | netError => simp [makeRequestAux, hresp]
  | succ n ih =>
    intro rc st
    cases hresp : responses rc with
    | response statusCode contentType body =>
      by_cases h200 : statusCode = 200
      · by_cases himg : (strContains "image" contentType && decide (body.length > 1000)) = true
        · simp [makeRequestAux, hresp, h200, himg]
        · simp [makeRequestAux, hresp, h200, himg]
      · have e := ih (rc + 1) { st with totalRequests := st.totalRequests + 1 }
        simp only [makeRequestAux, hresp, h200, if_false]
        simpa using e
    | netError =>
      have e := ih (rc + 1) st
      simp only [makeRequestAux, hresp]
      simpa using e

theorem makeRequestAux_invariant (responses : Nat → HttpOutcome) (delay : ℚ) :
    ∀ (r rc : Nat) (st : ProgressData),
      st.successfulRequests ≤ st.totalRequests →
      (makeRequestAux responses delay r rc st).st.successfulRequests ≤
        (makeRequestAux responses delay r rc st).st.totalRequests := by
  intro r
  induction r with
  | zero =>
    intro rc st hle
    cases hresp : responses rc with
    | response statusCode contentType body =>
      by_cases h200 : statusCode = 200
      · by_cases himg : (strContains "image" contentType && decide (body.length > 1000)) = true
        · simp [makeRequestAux, hresp, h200, himg]; omega
        · simp [makeRequestAux, hresp, h200, himg]; omega
      · simp [makeRequestAux, hresp, h200]; omega
    | netError => simpa [makeRequestAux, hresp] using hle
  | succ n ih =>
    intro rc st hle
    cases hresp : responses rc with
    | response statusCode contentType body =>
      by_cases h200 : statusCode = 200
      · by_cases himg : (strContains "image" contentType && decide (body.length > 1000)) = true
        · simp [makeRequestAux, hresp, h200, himg]; omega
        · simp [makeRequestAux, hresp, h200, himg]; omega
      · have e := ih (rc + 1) { st with totalRequests := st.totalRequests + 1 } (by simp; omega)
        simp only [makeRequestAux, hresp, h200, if_false]
        simpa using e
    | netError =>
      have e := ih (rc + 1) st hle
      simp only [makeRequestAux, hresp]
      simpa using e

/-! ## Helper lemmas about the heading loop and the summary -/

theorem foldl_scrapeHeading_marks (responses : Int → Nat → HttpOutcome)
    (maxRetries : Nat) (delay : ℚ) :
    ∀ (headings : List Int) (acc : HeadingLoop),
      (headings.foldl (scrapeHeading responses maxRetries delay) acc).st.completed =
        acc.st.completed ∧
      (headings.foldl (scrapeHeading responses maxRetries delay) acc).st.failed =
        acc.st.failed := by
  intro headings
  induction headings with
  | nil => intro acc; simp
  | cons h t ih =>
    intro acc
    have e := ih (scrapeHeading responses maxRetries delay acc h)
    have em := makeRequestAux_marks (responses h) delay (maxRetries - 0) 0 acc.st
    simp only [Nat.sub_zero] at em
    constructor
    · rw [List.foldl_cons, e.1]
      unfold scrapeHeading makeRequest
      simp only [Nat.sub_zero]
      cases hdata : (makeRequestAux (responses h) delay maxRetries 0 acc.st).data <;>
        simp [hdata, em.1]
    · rw [List.foldl_cons, e.2]
      unfold scrapeHeading makeRequest
      simp only [Nat.sub_zero]
      cases hdata : (makeRequestAux (responses h) delay maxRetries 0 acc.st).data <;>
        simp [hdata, em.2]

theorem foldl_scrapeHeading_netError (responses : Int → Nat → HttpOutcome)
    (maxRetries : Nat) (delay : ℚ)
    (hfail : ∀ h n, responses h n = .netError) :
    ∀ (headings : List Int) (acc : HeadingLoop),
      headings.foldl (scrapeHeading responses maxRetries delay) acc =
        { st := acc.st, images := acc.images,
          headingsSuccessful := acc.headingsSuccessful,
          attempts := acc.attempts + headings.length * (maxRetries + 1) } := by
  intro headings
  induction headings with
  | nil => intro acc; simp
  | cons h t ih =>
    intro acc
    rw [List.foldl_cons, ih]
    unfold scrapeHeading makeRequest
    rw [makeRequestAux_netError (responses h) delay (hfail h) (maxRetries - 0) 0 acc.st]
    simp [Nat.mul_succ, Nat.succ_mul]
    omega

theorem makeRequestAux_attempts_pos (responses : Nat → HttpOutcome) (delay : ℚ) :
    ∀ (r rc : Nat) (st : ProgressData),
      1 ≤ (makeRequestAux responses delay r rc st).attempts := by
  intro r
  induction r with
  | zero =>
    intro rc st
    cases hresp : responses rc with
    | response statusCode contentType body =>
      by_cases h200 : statusCode = 200
      · by_cases himg : (strContains "image" contentType && decide (body.length > 1000)) = true
        · simp [makeRequestAux, hresp, h200, himg]
        · simp [makeRequestAux, hresp, h200, himg]
      · simp [makeRequestAux, hresp, h200]
    | netError => simp [makeRequestAux, hresp]
  | succ n ih =>
    intro rc st
    cases hresp : responses rc with
    | response statusCode contentType body =>
      by_cases h200 : statusCode = 200
      · by_cases himg : (strContains "image" contentType && decide (body.length > 1000)) = true
        · simp [makeRequestAux, hresp, h200, himg]
        · simp [makeRequestAux, hresp, h200, himg]
      · simp [makeRequestAux, hresp, h200]
    | netError => simp [makeRequestAux, hresp]

theorem makeRequestAux_failure_data_none (responses : Nat → HttpOutcome) (delay : ℚ)
    (hall : ∀ n, isFailure (responses n) = true) :
    ∀ (r rc : Nat) (st : ProgressData),
      (makeRequestAux responses delay r rc st).data = none := by
  intro r
  induction r with
  | zero =>
    intro rc st
    cases hresp : responses rc with
    | response statusCode contentType body =>
      have hf := hall rc
      rw [hresp] at hf
      simp only [isFailure] at hf
      by_cases h200 : statusCode = 200
      · have himg : (strContains "image" contentType && decide (body.length > 1000)) = false := by
          subst h200
          simp only [bne_self_eq_false, Bool.false_or, Bool.not_eq_true'] at hf
          exact hf
        simp [makeRequestAux, hresp, h200, himg]
      · simp [makeRequestAux, hresp, h200]
    | netError => simp [makeRequestAux, hresp]
  | succ n ih =>
    intro rc st
    cases hresp : responses rc with
    | response statusCode contentType body =>
      have hf := hall rc
      rw [hresp] at hf
      simp only [isFailure] at hf
      by_cases h200 : statusCode = 200
      · have himg : (strContains "image" contentType && decide (body.length > 1000)) = false := by
          subst h200
          simp only [bne_self_eq_false, Bool.false_or, Bool.not_eq_true'] at hf
          exact hf
        simp [makeRequestAux, hresp, h200, himg]
      · simp [makeRequestAux, hresp, h200, ih (rc + 1)]
    | netError => simp [makeRequestAux, hresp, ih (rc + 1)]

theorem scrapeHeading_attempts (responses : Int → Nat → HttpOutcome)
    (maxRetries : Nat) (delay : ℚ) (acc : HeadingLoop) (h : Int) :
    (scrapeHeading responses maxRetries delay acc h).attempts =
      acc.attempts + (makeRequest (responses h) maxRetries delay 0 acc.st).attempts := by
  unfold scrapeHeading
  cases hdata : (makeRequest (responses h) maxRetries delay 0 acc.st).data <;>
    simp [hdata]

theorem foldl_scrapeHeading_attempts_mono (responses : Int → Nat → HttpOutcome)
    (maxRetries : Nat) (delay : ℚ) :
    ∀ (headings : List Int) (acc : HeadingLoop),
      acc.attempts ≤ (headings.foldl (scrapeHeading responses maxRetries delay) acc).attempts := by
  intro headings
  induction headings with
  | nil => intro acc; simp
  | cons h t ih =>
    intro acc
    rw [List.foldl_cons]
    refine le_trans ?_ (ih (scrapeHeading responses maxRetries delay acc h))
    rw [scrapeHeading_attempts]
    omega

theorem foldl_scrapeHeading_failure (responses : Int → Nat → HttpOutcome)
    (maxRetries : Nat) (delay : ℚ)
    (hfail : ∀ h n, isFailure (responses h n) = true) :
    ∀ (headings : List Int) (acc : HeadingLoop),
      (headings.foldl (scrapeHeading responses maxRetries delay) acc).images = acc.images ∧
      (headings.foldl (scrapeHeading responses maxRetries delay) acc).headingsSuccessful =
        acc.headingsSuccessful := by
  intro headings
  induction headings with
  | nil => intro acc; simp
  | cons h t ih =>
    intro acc
    have hd : (makeRequest (responses h) maxRetries delay 0 acc.st).data = none := by
      unfold makeRequest
      exact makeRequestAux_failure_data_none (responses h) delay (hfail h) _ 0 acc.st
    have hstep : scrapeHeading responses maxRetries delay acc h =
        { acc with
          st := (makeRequest (responses h) maxRetries delay 0 acc.st).st
          attempts := acc.attempts +
            (makeRequest (responses h) maxRetries delay 0 acc.st).attempts } := by
      simp only [scrapeHeading, hd]
    rw [List.foldl_cons, hstep]
    simpa using ih _

theorem scrapeProperty_attempts_ne_zero
    (headings : List Int) (maxRetries : Nat) (delay : ℚ)
    (responses : Int → Nat → HttpOutcome) (address city state zip : String)
    (st : ProgressData)
    (hnew : sanitizeFilename (fullAddress address city state zip) ∉ st.completed)
    (hne : headings ≠ []) :
    (scrapeProperty headings maxRetries delay responses address city state zip st).attempts ≠ 0 := by
  obtain ⟨h, t, rfl⟩ : ∃ h t, headings = h :: t := by
    cases headings with
    | nil => exact absurd rfl hne
    | cons h t => exact ⟨h, t, rfl⟩
  have hpos : 1 ≤ ((h :: t).foldl (scrapeHeading responses maxRetries delay)
      { st := st, images := [], headingsSuccessful := [], attempts := 0 }).attempts := by
    rw [List.foldl_cons]
    refine le_trans ?_ (foldl_scrapeHeading_attempts_mono responses maxRetries delay t _)
    rw [scrapeHeading_attempts]
    have hp := makeRequestAux_attempts_pos (responses h) delay (maxRetries - 0) 0 st
    unfold makeRequest
    simpa using hp
  simp only [scrapeProperty, if_neg hnew]
  split <;> (dsimp only; omega)

theorem scrapeProperty_completed_stable
    (headings : List Int) (maxRetries : Nat) (delay : ℚ)
    (responses : Int → Nat → HttpOutcome) (address city state zip : String)
    (st : ProgressData) (k : String) (h : k ∈ st.completed) :
    k ∈ (scrapeProperty headings maxRetries delay responses
          address city state zip st).st.completed ∧
    (scrapeProperty headings maxRetries delay responses
        address city state zip st).st.failed.count k = st.failed.count k := by
  by_cases hskip : sanitizeFilename (fullAddress address city state zip) ∈ st.completed
  · simp [scrapeProperty, hskip, h]
  · have hfn : sanitizeFilename (fullAddress address city state zip) ≠ k := by
      intro hc
      rw [hc] at hskip
      exact hskip h
    have hm := foldl_scrapeHeading_marks responses maxRetries delay headings
      { st := st, images := [], headingsSuccessful := [], attempts := 0 }
    simp only [scrapeProperty, if_neg hskip]
    by_cases himg :
        (headings.foldl (scrapeHeading responses maxRetries delay)
          { st := st, images := [], headingsSuccessful := [], attempts := 0 }).images = []
    · simp only [himg, ne_eq, not_true_eq_false, if_false]
      refine ⟨by simpa [hm.1] using h, ?_⟩
      simp [hm.2, List.count_append, List.count_cons, List.count_nil, hfn]
    · simp only [ne_eq, himg, not_false_eq_true, if_true]
      refine ⟨?_, by simp [hm.2]⟩
      rw [hm.1]
      exact List.mem_append_left _ h

theorem summary_rate_le (st : ProgressData)
    (h : st.successfulRequests ≤ st.totalRequests) :
    (getSummary st).successRate ≤ 100 := by
  unfold getSummary
  dsimp only
  split
  · rename_i ht
    have h2 : (0 : ℚ) < (st.totalRequests : ℚ) := by exact_mod_cast ht
    have h1 : (st.successfulRequests : ℚ) ≤ (st.totalRequests : ℚ) := by exact_mod_cast h
    have hdiv : (st.successfulRequests : ℚ) / (st.totalRequests : ℚ) ≤ 1 :=
      (div_le_one h2).mpr h1
    calc (st.successfulRequests : ℚ) / (st.totalRequests : ℚ) * 100
        ≤ 1 * 100 := mul_le_mul_of_nonneg_right hdiv (by norm_num)
      _ = 100 := by norm_num
  · norm_num

/-! ## Helper lemmas about `_sanitize_filename` -/

theorem char_toNat_ofNat (n : Nat) (h : n.isValidChar) : (Char.ofNat n).toNat = n := by
  unfold Char.ofNat
  rw [dif_pos h]
  rfl

theorem pyLowerChar_cases (c : Char) :
    (¬ (65 ≤ c.toNat ∧ c.toNat ≤ 90) ∧ pyLowerChar c = c) ∨
    (65 ≤ c.toNat ∧ c.toNat ≤ 90 ∧ (pyLowerChar c).toNat = c.toNat + 32) := by
  unfold pyLowerChar
  by_cases h : 65 ≤ c.toNat ∧ c.toNat ≤ 90
  · rw [if_pos h]
    exact Or.inr ⟨h.1, h.2, char_toNat_ofNat _ (Or.inl (by omega))⟩
  · rw [if_neg h]
    exact Or.inl ⟨h, rfl⟩

theorem pyLowerChar_not_upper (c : Char) :
    ¬ (65 ≤ (pyLowerChar c).toNat ∧ (pyLowerChar c).toNat ≤ 90) := by
  rcases pyLowerChar_cases c with ⟨h1, h2⟩ | ⟨h1, h2, h3⟩
  · rw [h2]; exact h1
  · omega

theorem isPySpace_pyLowerChar (c : Char) (h : isPySpace c = false) :
    isPySpace (pyLowerChar c) = false := by
  rcases pyLowerChar_cases c with ⟨_, h2⟩ | ⟨h1, h2, h3⟩
  · rw [h2]; exact h
  · simp only [isPySpace, h3]
    simp
    omega

theorem mem_specialChars_toNat : ∀ d ∈ specialChars, d.toNat ≤ 92 ∨ d.toNat = 124 := by
  decide

theorem mem_punctChars_toNat : ∀ d ∈ punctChars, d.toNat ≤ 46 := by
  decide

theorem pyLowerChar_not_special (c : Char) (h : c ∉ specialChars) :
    pyLowerChar c ∉ specialChars := by
  rcases pyLowerChar_cases c with ⟨_, h2⟩ | ⟨h1, h2, h3⟩
  · rw [h2]; exact h
  · intro hmem
    have hb := mem_specialChars_toNat _ hmem
    omega

theorem pyLowerChar_not_punct (c : Char) (h : c ∉ punctChars) :
    pyLowerChar c ∉ punctChars := by
  rcases pyLowerChar_cases c with ⟨_, h2⟩ | ⟨h1, h2, h3⟩
  · rw [h2]; exact h
  · intro hmem
    have hb := mem_punctChars_toNat _ hmem
    omega

theorem mem_collapseWsAux (l : List Char) :
    ∀ (b : Bool) (c : Char), c ∈ collapseWsAux b l →
      c = '_' ∨ (c ∈ l ∧ isPySpace c = false) := by
  induction l with
  | nil => intro b c hc; simp [collapseWsAux] at hc
  | cons d ds ih =>
    intro b c hc
    simp only [collapseWsAux] at hc
    by_cases hd : isPySpace d = true
    · rw [if_pos hd] at hc
      by_cases hb : b = true
      · rw [if_pos hb] at hc
        rcases ih true c hc with h1 | ⟨h2, h3⟩
        · exact Or.inl h1
        · exact Or.inr ⟨List.mem_cons_of_mem _ h2, h3⟩
      · rw [if_neg hb] at hc
        rcases List.mem_cons.mp hc with h1 | h1
        · exact Or.inl h1
        · rcases ih true c h1 with h2 | ⟨h3, h4⟩
          · exact Or.inl h2
          · exact Or.inr ⟨List.mem_cons_of_mem _ h3, h4⟩
    · rw [if_neg hd] at hc
      rcases List.mem_cons.mp hc with h1 | h1
      · subst h1
        exact Or.inr ⟨List.mem_cons_self _ _, by simp at hd; exact hd⟩
      · rcases ih false c h1 with h2 | ⟨h3, h4⟩
        · exact Or.inl h2
        · exact Or.inr ⟨List.mem_cons_of_mem _ h3, h4⟩

theorem mem_pyStrip (l : List Char) (c : Char) (h : c ∈ pyStrip l) : c ∈ l := by
  unfold pyStrip at h
  rw [List.mem_reverse] at h
  have h1 := (List.dropWhile_sublist (l := (l.dropWhile isPySpace).reverse)
    (p := isPySpace)).mem h
  rw [List.mem_reverse] at h1
  exact (List.dropWhile_sublist (l := l) (p := isPySpace)).mem h1

theorem truncate_length_le (l : List Char) :
    (if l.length > 100 then l.take 100 else l).length ≤ 100 := by
  split
  · simp [List.length_take]
  · omega

theorem mem_of_mem_truncate (l : List Char) (c : Char)
    (h : c ∈ (if l.length > 100 then l.take 100 else l)) : c ∈ l := by
  split at h
  · exact List.take_subset _ _ h
  · exact h

/-! ## Claim theorems -/

/-- C1: Resumability. When the key derived from the full address is already
in the loaded progress state's completed list, `scrape_property` performs
no HTTP attempt (so `_make_request` is never invoked), leaves the whole
progress state, in particular `total_requests`, unchanged, writes no image
files and no metadata file, and returns `True`. -/
theorem scrape_property_skips_completed
    (headings : List Int) (maxRetries : Nat) (delay : ℚ)
    (responses : Int → Nat → HttpOutcome)
    (address city state zip : String) (st : ProgressData)
    (h : sanitizeFilename (fullAddress address city state zip) ∈ st.completed) :
    scrapeProperty headings maxRetries delay responses address city state zip st =
      { success := true, st := st, writtenImages := [],
        metadataWritten := none, attempts := 0 } := by
  simp [scrapeProperty, h]

set_option maxRecDepth 10000 in
theorem scrape_property_skips_completed_witness :
    sanitizeFilename (fullAddress "123 Main St" "Springfield" "" "") ∈
      (["123_main_st_springfield"] : List String) ∧
    scrapeProperty [0, 90, 180, 270] 3 0 (fun _ _ => .netError)
        "123 Main St" "Springfield" "" ""
        { completed := ["123_main_st_springfield"], failed := [], lastUpdated := none,
          totalRequests := 7, successfulRequests := 3 } =
      { success := true,
        st := { completed := ["123_main_st_springfield"], failed := [], lastUpdated := none,
                totalRequests := 7, successfulRequests := 3 },
        writtenImages := [], metadataWritten := none, attempts := 0 } :=
  ⟨by decide, scrape_property_skips_completed _ _ _ _ _ _ _ _ _ (by decide)⟩

/-- C2: Retry policy of a single-heading fetch. A 200 response whose
content type is not an image or whose payload is at most 1000 bytes (the
no-imagery outcome) returns after exactly one attempt, with no retry and
no backoff sleep. Any always-retriable failure pattern (non-200 status or
network exception at every attempt, in particular a permanent network
error) yields exactly `maxRetries + 1` attempts in total, reported as a
failure, with the backoff sleeps `delay * (attempt + 1)` for the attempts
0 through `maxRetries - 1`. -/
theorem make_request_retry_policy (responses : Nat → HttpOutcome)
    (maxRetries : Nat) (delay : ℚ) (st : ProgressData) :
    (∀ contentType body,
      responses 0 = .response 200 contentType body →
      (strContains "image" contentType && decide (body.length > 1000)) = false →
      makeRequest responses maxRetries delay 0 st =
        { data := none, st := { st with totalRequests := st.totalRequests + 1 },
          attempts := 1, sleeps := [] }) ∧
    ((∀ n, isRetriableFailure (responses n) = true) →
      (makeRequest responses maxRetries delay 0 st).data = none ∧
      (makeRequest responses maxRetries delay 0 st).attempts = maxRetries + 1 ∧
      (makeRequest responses maxRetries delay 0 st).sleeps =
        (List.range' 1 maxRetries).map (fun k => delay * (k : ℚ))) := by
  constructor
  · intro ct body h hno
    unfold makeRequest
    simp only [Nat.sub_zero]
    exact makeRequestAux_noImagery responses delay ct body h hno maxRetries st
  · intro hall
    unfold makeRequest
    simp only [Nat.sub_zero]
    simpa using makeRequestAux_retriable responses delay hall maxRetries 0 st

theorem make_request_retry_policy_witness :
    (makeRequest (fun _ => .response 200 "text/html" []) 3 0 0 freshProgress).attempts = 1 ∧
    (makeRequest (fun _ => .netError) 3 0 0 freshProgress).attempts = 4 := by
  constructor
  · rw [(make_request_retry_policy (fun _ => .response 200 "text/html" []) 3 0
      freshProgress).1 "text/html" [] rfl (by decide)]
  · exact ((make_request_retry_policy (fun _ => .netError) 3 0 freshProgress).2
      (fun n => rfl)).2.1

/-- C3: Partial success. For the 4-heading list where headings 0 and 180
return a genuine image at the first attempt and headings 90 and 270 fail
with the no-imagery outcome, `scrape_property` appends the derived key to
the completed list (not the failed list), returns `True`, and the written
metadata lists exactly the headings 0 and 180 as successful, in
heading-iteration order. -/
theorem scrape_property_partial_success
    (maxRetries : Nat) (delay : ℚ) (responses : Int → Nat → HttpOutcome)
    (address city state zip : String) (st : ProgressData)
    (ct0 ct90 ct180 ct270 : String) (body0 body90 body180 body270 : List Nat)
    (hnew : sanitizeFilename (fullAddress address city state zip) ∉ st.completed)
    (h0 : responses 0 0 = .response 200 ct0 body0)
    (h0ok : (strContains "image" ct0 && decide (body0.length > 1000)) = true)
    (h90 : responses 90 0 = .response 200 ct90 body90)
    (h90no : (strContains "image" ct90 && decide (body90.length > 1000)) = false)
    (h180 : responses 180 0 = .response 200 ct180 body180)
    (h180ok : (strContains "image" ct180 && decide (body180.length > 1000)) = true)
    (h270 : responses 270 0 = .response 200 ct270 body270)
    (h270no : (strContains "image" ct270 && decide (body270.length > 1000)) = false) :
    (scrapeProperty [0, 90, 180, 270] maxRetries delay responses
        address city state zip st).success = true ∧
    (scrapeProperty [0, 90, 180, 270] maxRetries delay responses
        address city state zip st).st.completed =
      st.completed ++ [sanitizeFilename (fullAddress address city state zip)] ∧
    (scrapeProperty [0, 90, 180, 270] maxRetries delay responses
        address city state zip st).st.failed = st.failed ∧
    (scrapeProperty [0, 90, 180, 270] maxRetries delay responses
        address city state zip st).metadataWritten = some
      { address := fullAddress address city state zip,
        folderName := sanitizeFilename (fullAddress address city state zip),
        images := [headingFilename 0, headingFilename 180],
        headingsAttempted := [0, 90, 180, 270],
        headingsSuccessful := [0, 180] } := by
  have e0 := makeRequestAux_success (responses 0) delay ct0 body0 h0 h0ok
  have e90 := makeRequestAux_noImagery (responses 90) delay ct90 body90 h90 h90no
  have e180 := makeRequestAux_success (responses 180) delay ct180 body180 h180 h180ok
  have e270 := makeRequestAux_noImagery (responses 270) delay ct270 body270 h270 h270no
  simp only [scrapeProperty, if_neg hnew, List.foldl_cons, List.foldl_nil,
    scrapeHeading, makeRequest, Nat.sub_zero, e0, e90, e180, e270]
  simp

set_option maxRecDepth 40000 in
theorem scrape_property_partial_success_witness :
    (sanitizeFilename (fullAddress "123 Main St" "Springfield" "" "") ∉
      (freshProgress).completed) ∧
    ((scrapeProperty [0, 90, 180, 270] 3 0 partialOracle
        "123 Main St" "Springfield" "" "" freshProgress).success = true ∧
     (scrapeProperty [0, 90, 180, 270] 3 0 partialOracle
        "123 Main St" "Springfield" "" "" freshProgress).st.completed =
       freshProgress.completed ++
         [sanitizeFilename (fullAddress "123 Main St" "Springfield" "" "")] ∧
     (scrapeProperty [0, 90, 180, 270] 3 0 partialOracle
        "123 Main St" "Springfield" "" "" freshProgress).st.failed =
       freshProgress.failed ∧
     (scrapeProperty [0, 90, 180, 270] 3 0 partialOracle
        "123 Main St" "Springfield" "" "" freshProgress).metadataWritten = some
       { address := fullAddress "123 Main St" "Springfield" "" "",
         folderName := sanitizeFilename (fullAddress "123 Main St" "Springfield" "" ""),
         images := [headingFilename 0, headingFilename 180],
         headingsAttempted := [0, 90, 180, 270],
         headingsSuccessful := [0, 180] }) :=
  ⟨by decide,
   scrape_property_partial_success 3 0 partialOracle "123 Main St" "Springfield" "" ""
     freshProgress "image/jpeg" "text/html" "image/jpeg" "text/html"
     (List.replicate 1001 0) [] (List.replicate 1001 0) []
     (by decide) rfl (by decide) rfl (by decide) rfl (by decide) rfl (by decide)⟩

/-- C4 counterexample: an address for which every heading fails is marked
failed and `scrape_property` returns `False`, but contrary to the claim a
metadata file IS written (the `metadata.json` write in the source is
unconditional), refuting the conjunct that no metadata file is written. -/
theorem scrape_property_all_failure_counterexample :
    (scrapeProperty [0] 0 0 (fun _ _ => .netError) "x" "" "" ""
      freshProgress).success = false ∧
    (scrapeProperty [0] 0 0 (fun _ _ => .netError) "x" "" "" ""
      freshProgress).st.failed = ["x"] ∧
    ¬ ((scrapeProperty [0] 0 0 (fun _ _ => .netError) "x" "" "" ""
      freshProgress).metadataWritten = none) := by
  decide

/-- C4 amended: if every attempt at every heading for an address returns
a failure (a network exception, a non-200 response, or a 200 response
without a genuine image, in any mixture), `scrape_property` appends the
derived key to the failed list (leaving completed unchanged), returns
`False`, writes no image files, writes the metadata file with empty image
and successful-heading lists, and a subsequent run over the resulting
progress state attempts the address again with a non-zero number of HTTP
attempts (only completed keys are skipped). -/
theorem scrape_property_all_failure
    (headings : List Int) (maxRetries : Nat) (delay : ℚ)
    (responses : Int → Nat → HttpOutcome) (address city state zip : String)
    (st : ProgressData)
    (hnew : sanitizeFilename (fullAddress address city state zip) ∉ st.completed)
    (hfail : ∀ h n, isFailure (responses h n) = true)
    (hne : headings ≠ []) :
    (scrapeProperty headings maxRetries delay responses
        address city state zip st).success = false ∧
    (scrapeProperty headings maxRetries delay responses
        address city state zip st).st.completed = st.completed ∧
    (scrapeProperty headings maxRetries delay responses
        address city state zip st).st.failed =
      st.failed ++ [sanitizeFilename (fullAddress address city state zip)] ∧
    (scrapeProperty headings maxRetries delay responses
        address city state zip st).writtenImages = [] ∧
    (scrapeProperty headings maxRetries delay responses
        address city state zip st).metadataWritten = some
      { address := fullAddress address city state zip,
        folderName := sanitizeFilename (fullAddress address city state zip),
        images := [], headingsAttempted := headings, headingsSuccessful := [] } ∧
    (scrapeProperty headings maxRetries delay responses address city state zip
        (scrapeProperty headings maxRetries delay responses
          address city state zip st).st).attempts ≠ 0 := by
  have hm := foldl_scrapeHeading_marks responses maxRetries delay headings
    { st := st, images := [], headingsSuccessful := [], attempts := 0 }
  have hf := foldl_scrapeHeading_failure responses maxRetries delay hfail headings
    { st := st, images := [], headingsSuccessful := [], attempts := 0 }
  have hcomp : (scrapeProperty headings maxRetries delay responses
      address city state zip st).st.completed = st.completed := by
    simp only [scrapeProperty, if_neg hnew, hf.1, ne_eq, not_true_eq_false, if_false]
    exact hm.1
  have hlast := scrapeProperty_attempts_ne_zero headings maxRetries delay responses
    address city state zip (scrapeProperty headings maxRetries delay responses
      address city state zip st).st (by rw [hcomp]; exact hnew) hne
  refine ⟨?_, hcomp, ?_, ?_, ?_, hlast⟩
  · simp only [scrapeProperty, if_neg hnew, hf.1, ne_eq, not_true_eq_false, if_false]
  · simp only [scrapeProperty, if_neg hnew, hf.1, ne_eq, not_true_eq_false, if_false]
    rw [hm.2]
  · simp only [scrapeProperty, if_neg hnew, hf.1, ne_eq, not_true_eq_false, if_false]
  · simp only [scrapeProperty, if_neg hnew, hf.1, hf.2, ne_eq, not_true_eq_false, if_false]

theorem scrape_property_all_failure_witness :
    (sanitizeFilename (fullAddress "x" "" "" "") ∉ (freshProgress).completed) ∧
    ((scrapeProperty [0] 2 0 (fun _ _ => .response 200 "text/html" []) "x" "" "" ""
        freshProgress).success = false ∧
     (scrapeProperty [0] 2 0 (fun _ _ => .response 200 "text/html" []) "x" "" "" ""
        freshProgress).st.completed = freshProgress.completed ∧
     (scrapeProperty [0] 2 0 (fun _ _ => .response 200 "text/html" []) "x" "" "" ""
        freshProgress).st.failed =
       freshProgress.failed ++ [sanitizeFilename (fullAddress "x" "" "" "")] ∧
     (scrapeProperty [0] 2 0 (fun _ _ => .response 200 "text/html" []) "x" "" "" ""
        freshProgress).writtenImages = [] ∧
     (scrapeProperty [0] 2 0 (fun _ _ => .response 200 "text/html" []) "x" "" "" ""
        freshProgress).metadataWritten = some
       { address := fullAddress "x" "" "" "",
         folderName := sanitizeFilename (fullAddress "x" "" "" ""),
         images := [], headingsAttempted := [0], headingsSuccessful := [] } ∧
     (scrapeProperty [0] 2 0 (fun _ _ => .response 200 "text/html" []) "x" "" "" ""
        (scrapeProperty [0] 2 0 (fun _ _ => .response 200 "text/html" []) "x" "" "" ""
          freshProgress).st).attempts ≠ 0) :=
  ⟨by decide,
   scrape_property_all_failure [0] 2 0 (fun _ _ => .response 200 "text/html" [])
     "x" "" "" "" freshProgress (by decide)
     (fun _ _ => by
       show isFailure (.response 200 "text/html" []) = true
       decide)
     (by decide)⟩

set_option maxRecDepth 40000 in
/-- C5 counterexample: starting from a state whose failed list contains
the key, a successful `scrape_property` run appends the key to the
completed list without removing it from the failed list, so the key ends
up in both collections, refuting mutual exclusion. -/
theorem progress_marks_counterexample :
    "k" ∈ (scrapeProperty [0] 0 0
      (fun _ _ => .response 200 "image/jpeg" (List.replicate 1001 0)) "k" "" "" ""
      { completed := [], failed := ["k"], lastUpdated := none,
        totalRequests := 0, successfulRequests := 0 }).st.completed ∧
    "k" ∈ (scrapeProperty [0] 0 0
      (fun _ _ => .response 200 "image/jpeg" (List.replicate 1001 0)) "k" "" "" ""
      { completed := [], failed := ["k"], lastUpdated := none,
        totalRequests := 0, successfulRequests := 0 }).st.failed := by
  decide

/-- C5 amended: across any sequence of `scrape_property` calls (any
targets, any oracles), a key present in the completed list stays in it and
its multiplicity in the failed list never changes (completed keys are
always skipped, and a differently-keyed address cannot touch it); the
claimed stronger properties of mutual exclusion, removal of the failed
mark on completion, and idempotent marking do not hold, because the
collections are plain lists that are only ever appended to. -/
theorem completed_keys_stable (headings : List Int) (maxRetries : Nat) (delay : ℚ)
    (oracle : Target → Int → Nat → HttpOutcome) (targets : List Target)
    (st : ProgressData) (k : String) (h : k ∈ st.completed) :
    k ∈ (runTargets headings maxRetries delay oracle targets st).completed ∧
    (runTargets headings maxRetries delay oracle targets st).failed.count k =
      st.failed.count k := by
  induction targets generalizing st with
  | nil => exact ⟨by simpa [runTargets] using h, by simp [runTargets]⟩
  | cons t ts ih =>
    have h1 := scrapeProperty_completed_stable headings maxRetries delay (oracle t)
      t.address t.city t.state t.zip st k h
    have h2 := ih (scrapeProperty headings maxRetries delay (oracle t)
      t.address t.city t.state t.zip st).st h1.1
    simp only [runTargets, List.foldl_cons] at h2 ⊢
    exact ⟨h2.1, h2.2.trans h1.2⟩

set_option maxRecDepth 40000 in
theorem completed_keys_stable_witness :
    "k" ∈ (({ completed := ["k"], failed := [], lastUpdated := none,
              totalRequests := 0, successfulRequests := 0 } : ProgressData)).completed ∧
    ("k" ∈ (runTargets [0] 0 0
        (fun _ _ _ => .response 200 "image/jpeg" (List.replicate 1001 0))
        [{ address := "k", city := "", state := "", zip := "" },
         { address := "other st", city := "", state := "", zip := "" }]
        { completed := ["k"], failed := [], lastUpdated := none,
          totalRequests := 0, successfulRequests := 0 }).completed ∧
     (runTargets [0] 0 0
        (fun _ _ _ => .response 200 "image/jpeg" (List.replicate 1001 0))
        [{ address := "k", city := "", state := "", zip := "" },
         { address := "other st", city := "", state := "", zip := "" }]
        { completed := ["k"], failed := [], lastUpdated := none,
          totalRequests := 0, successfulRequests := 0 }).failed.count "k" =
       (({ completed := ["k"], failed := [], lastUpdated := none,
           totalRequests := 0, successfulRequests := 0 } : ProgressData)).failed.count "k") :=
  ⟨by decide,
   completed_keys_stable [0] 0 0
     (fun _ _ _ => .response 200 "image/jpeg" (List.replicate 1001 0))
     [{ address := "k", city := "", state := "", zip := "" },
      { address := "other st", city := "", state := "", zip := "" }]
     { completed := ["k"], failed := [], lastUpdated := none,
       totalRequests := 0, successfulRequests := 0 } "k" (by decide)⟩

/-- C6 counterexample: an attempt that ends in a network-level exception
does not increment `total_requests` (one attempt is made, the counter
stays 0), refuting the conjunct that every attempt, including those ending
in a network exception, increments the counter. -/
theorem request_counter_counterexample :
    (makeRequest (fun _ => .netError) 0 0 0 freshProgress).attempts = 1 ∧
    (makeRequest (fun _ => .netError) 0 0 0 freshProgress).st.totalRequests = 0 := by
  decide

/-- C6 amended: `total_requests` grows by exactly the number of attempts
whose`requests.get` call returned an HTTP response (any status code);
attempts ending in a network exception are not counted, because the
increment follows the call inside the `try` block. `successful_requests`
grows by one exactly when the fetch returns genuine image data. -/
theorem make_request_accounting (responses : Nat → HttpOutcome) (maxRetries : Nat)
    (delay : ℚ) (retryCount : Nat) (st : ProgressData) :
    (makeRequest responses maxRetries delay retryCount st).st.totalRequests =
      st.totalRequests +
        ((List.range' retryCount
            (makeRequest responses maxRetries delay retryCount st).attempts).filter
          (fun n => responded (responses n))).length ∧
    (makeRequest responses maxRetries delay retryCount st).st.successfulRequests =
      st.successfulRequests +
        (if (makeRequest responses maxRetries delay retryCount st).data.isSome then 1 else 0) := by
  unfold makeRequest
  exact makeRequestAux_accounting responses delay (maxRetries - retryCount) retryCount st

/-- C7 counterexample: with 4 successful requests out of 4 the summary
reports a success rate of 100, not the plain ratio 1, refuting the claim
that `success_rate` equals `successful_requests / total_requests`. -/
theorem success_rate_counterexample :
    (getSummary { completed := [], failed := [], lastUpdated := none,
                  totalRequests := 4, successfulRequests := 4 }).successRate = 100 ∧
    (getSummary { completed := [], failed := [], lastUpdated := none,
                  totalRequests := 4, successfulRequests := 4 }).successRate ≠ 1 := by
  unfold getSummary
  norm_num

set_option maxRecDepth 40000 in
/-- C7 amended: the summary success rate is the percentage
`successful_requests / total_requests * 100` when any request was made and
0 when `total_requests` is zero; in particular the specification example
(4-heading address, all four requests succeed, from a fresh state) yields
the summary with 1 completed, 0 failed, 4 requests, 4 successes, and
success rate 100. -/
theorem success_rate_formula :
    (∀ st : ProgressData,
      (getSummary st).successRate =
        if st.totalRequests > 0 then
          (st.successfulRequests : ℚ) / (st.totalRequests : ℚ) * 100
        else 0) ∧
    getSummary (scrapeProperty [0, 90, 180, 270] 3 0 allSuccessOracle
        "123 Main St" "Springfield" "" "" freshProgress).st =
      { totalCompleted := 1, totalFailed := 0, totalRequests := 4,
        successfulRequests := 4, successRate := 100, lastUpdated := none } := by
  constructor
  · intro st; rfl
  · have hst : (scrapeProperty [0, 90, 180, 270] 3 0 allSuccessOracle
        "123 Main St" "Springfield" "" "" freshProgress).st =
        { completed := ["123_main_st_springfield"], failed := [], lastUpdated := none,
          totalRequests := 4, successfulRequests := 4 } := by decide
    rw [hst]
    simp [getSummary, Summary.mk.injEq]

/-- C8 counterexample: the address string made of the letter a, a hyphen
and the letter b sanitizes to itself, while the algorithm described by the
specification (strip characters outside the alphanumeric range and
whitespace) would produce the two-letter key; the hyphen also refutes the
conjunct that keys contain only lowercase letters, digits and
underscores. -/
theorem sanitize_filename_counterexample :
    sanitizeFilename "a-b" = "a-b" ∧
    specDeriveKey "a-b" = "ab" ∧
    ¬ (sanitizeFilename "a-b" = specDeriveKey "a-b") ∧
    ((sanitizeFilename "a-b").data.all
      (fun c => c.isLower || c.isDigit || c == '_')) = false := by
  decide

/-- C8 amended: the scrape-folder key has length at most 100 and contains
no whitespace, none of the characters removed by the two substitutions
(the nine shell-special characters, comma, period), and no uppercase ASCII
letter; characters outside the alphanumeric range other than the removed
ones (for example a hyphen) are preserved rather than stripped. -/
theorem sanitize_filename_safe (address : String) :
    (sanitizeFilename address).data.length ≤ 100 ∧
    ∀ c ∈ (sanitizeFilename address).data,
      isPySpace c = false ∧ c ∉ specialChars ∧ c ∉ punctChars ∧
      ¬ (65 ≤ c.toNat ∧ c.toNat ≤ 90) := by
  have key : ∀ c ∈ (collapseWsAux false (pyStrip ((address.data.filter
        (fun c => !(specialChars.contains c))).filter
        (fun c => !(punctChars.contains c))))).map pyLowerChar,
      isPySpace c = false ∧ c ∉ specialChars ∧ c ∉ punctChars ∧
      ¬ (65 ≤ c.toNat ∧ c.toNat ≤ 90) := by
    intro c hc
    rcases List.mem_map.mp hc with ⟨c0, hc0, rfl⟩
    rcases mem_collapseWsAux _ false c0 hc0 with h1 | ⟨h2, h3⟩
    · subst h1
      exact ⟨by decide, by decide, by decide, by decide⟩
    · have h4 : c0 ∈ (address.data.filter
          (fun c => !(specialChars.contains c))).filter
          (fun c => !(punctChars.contains c)) := mem_pyStrip _ _ h2
      have h5 : c0 ∉ punctChars := by
        have := List.of_mem_filter h4
        simpa using this
      have h6 : c0 ∉ specialChars := by
        have := List.of_mem_filter (List.mem_of_mem_filter h4)
        simpa using this
      exact ⟨isPySpace_pyLowerChar c0 h3, pyLowerChar_not_special c0 h6,
        pyLowerChar_not_punct c0 h5, pyLowerChar_not_upper _⟩
  unfold sanitizeFilename
  exact ⟨truncate_length_le _, fun c hc => key c (mem_of_mem_truncate _ _ hc)⟩

theorem sanitize_filename_safe_witness :
    (sanitizeFilename "A  B!").data.length ≤ 100 ∧
    (isPySpace 'a' = false ∧ 'a' ∉ specialChars ∧ 'a' ∉ punctChars ∧
      ¬ (65 ≤ 'a'.toNat ∧ 'a'.toNat ≤ 90)) :=
  ⟨(sanitize_filename_safe "A  B!").1,
   (sanitize_filename_safe "A  B!").2 'a' (by decide)⟩

/-- C9 counterexample: on a corrupt progress file the loader does return
the fresh zero state, but it logs no warning at all (the exception handler
is a bare `pass`), refuting the conjunct that a warning is logged. -/
theorem load_progress_counterexample :
    ¬ ((loadProgress .badJson).1 = freshProgress ∧ (loadProgress .badJson).2 ≠ []) := by
  intro h
  exact h.2 rfl

/-- C9 amended: loading returns the fresh zero state for a missing file
and, silently and without any warning message, for an unreadable or
corrupt file; the loader is a total function of the read outcome, so it
never raises to its caller. -/
theorem load_progress_fallback (f : ReadResult)
    (h : f = .noFile ∨ f = .readError ∨ f = .badJson) :
    loadProgress f = (freshProgress, []) := by
  rcases h with h | h | h <;> subst h <;> rfl

theorem load_progress_fallback_witness :
    ((.badJson : ReadResult) = .noFile ∨ (.badJson : ReadResult) = .readError ∨
      (.badJson : ReadResult) = .badJson) ∧
    loadProgress .badJson = (freshProgress, []) :=
  ⟨Or.inr (Or.inr rfl), load_progress_fallback .badJson (Or.inr (Or.inr rfl))⟩

/-- C10: starting from any progress state in which `successful_requests`
does not exceed `total_requests`, every execution of the per-heading fetch
preserves that inequality (`successful_requests` is only incremented on a
path that has already incremented `total_requests`), and consequently the
summary success rate computed from the resulting state never exceeds
100 percent. -/
theorem make_request_preserves_counter_invariant (responses : Nat → HttpOutcome)
    (maxRetries : Nat) (delay : ℚ) (retryCount : Nat) (st : ProgressData)
    (h : st.successfulRequests ≤ st.totalRequests) :
    (makeRequest responses maxRetries delay retryCount st).st.successfulRequests ≤
      (makeRequest responses maxRetries delay retryCount st).st.totalRequests ∧
    (getSummary (makeRequest responses maxRetries delay retryCount st).st).successRate ≤ 100 := by
  have h1 := makeRequestAux_invariant responses delay (maxRetries - retryCount) retryCount st h
  exact ⟨h1, summary_rate_le _ h1⟩

theorem make_request_preserves_counter_invariant_witness :
    freshProgress.successfulRequests ≤ freshProgress.totalRequests ∧
    ((makeRequest (fun _ => .netError) 3 0 0 freshProgress).st.successfulRequests ≤
      (makeRequest (fun _ => .netError) 3 0 0 freshProgress).st.totalRequests ∧
     (getSummary (makeRequest (fun _ => .netError) 3 0 0 freshProgress).st).successRate ≤ 100) :=
  ⟨by decide, make_request_preserves_counter_invariant _ 3 0 0 freshProgress (by decide)⟩

end ItsGarages
